import Mathlib

/-!
Verification of the Printer gateway (src/main.py).

The file shallowly embeds the ticket-rendering core of the repository:
the pixel-width text wrapper, the ticket layout engine (line records and
canvas height), the outbound MQTT payload, the font loader and the image
resize branch.  Python strings are Lean strings, Python ints are Nat/Int,
a PIL font is abstracted by its pixel-width measure, and effectful calls
(font file loading, the MQTT client publish) are passed in as explicit
outcome parameters.
-/

namespace Printer

/-- Models the whitespace class of Python str.split() / str.strip()
(the ASCII whitespace characters). -/
def isPySpace (c : Char) : Bool :=
  c == ' ' || c == '\t' || c == '\n' || c == '\r' || c == '\x0b' || c == '\x0c'

/-- Tokeniser underlying Python text.split(): splits on runs of whitespace
and produces no empty tokens.  The accumulator holds the current token
reversed. -/
def tokensAux (cur : List Char) : List Char → List (List Char)
  | [] => if cur = [] then [] else [cur.reverse]
  | c :: cs =>
    if isPySpace c then (if cur = [] then [] else [cur.reverse]) ++ tokensAux [] cs
    else tokensAux (c :: cur) cs

/-- Models text.split() as used by wrap_by_pixels (src/main.py line 82). -/
def pySplit (s : String) : List String :=
  (tokensAux [] s.data).map String.mk

/-- Models Python str.strip(): drops whitespace from both ends. -/
def pyStrip (s : String) : String :=
  String.mk (((s.data.dropWhile isPySpace).reverse.dropWhile isPySpace).reverse)

/-- Loop of wrap_by_pixels (src/main.py lines 86-94): current line plus the
remaining words; the font is abstracted by its pixel-width measure
(text_width, src/main.py lines 70-78). -/
def wrapAux (font : String → Nat) (max_px : Nat) (line : String) :
    List String → List String
  | [] => [line]
  | word :: rest =>
    let test := line ++ " " ++ word
    if font test ≤ max_px then wrapAux font max_px test rest
    else line :: wrapAux font max_px word rest

/-- wrap_by_pixels (src/main.py lines 80-95): word wrap by pixel width. -/
def wrap_by_pixels (text : String) (font : String → Nat) (max_px : Nat) :
    List String :=
  match pySplit text with
  | [] => [""]
  | w :: ws => wrapAux font max_px w ws

/-- Step of the greedy accumulation exactly as the specification section 4.2
words it: the state is (flushed lines, current line); a fitting candidate is
accepted, otherwise the current line is flushed unchanged and the overflowing
token starts the new line. -/
def wrapSpecStep (font : String → Nat) (max_px : Nat) :
    List String × String → String → List String × String
  | (done, cur), tok =>
    let candidate := cur ++ " " ++ tok
    if font candidate ≤ max_px then (done, candidate) else (done ++ [cur], tok)

/-- Wrapper algorithm as described by the specification's words (section 4.2):
split on whitespace, greedily fold the tokens, flush the last line at the end;
empty input yields the single empty line. -/
def wrapSpec (text : String) (font : String → Nat) (max_px : Nat) :
    List String :=
  match pySplit text with
  | [] => [""]
  | t :: ts =>
    let r := ts.foldl (wrapSpecStep font max_px) ([], t)
    r.1 ++ [r.2]

/-- Joining wrapped lines back together with single spaces; used to state
token preservation of the wrapper. -/
def joinSpace : List String → String
  | [] => ""
  | [l] => l
  | l :: ls => l ++ " " ++ joinSpace ls

/-- Configuration constants of src/main.py lines 30-41 (read from the
environment at startup; modelled as an explicit record). -/
structure Config where
  PRINT_WIDTH_PX : Nat
  SIZE_TITLE : Nat
  SIZE_BODY : Nat
  MARGIN_X : Nat
  MARGIN_Y : Nat
  EXTRA_BOTTOM : Nat

/-- Default configuration values of src/main.py (576, 32, 28, 20, 20, 30). -/
def defaultConfig : Config := ⟨576, 32, 28, 20, 20, 30⟩

/-- Layout part of render_text_ticket (src/main.py lines 121-150): the list
of (role, text) line records and the computed canvas height.  The two fonts
are abstracted by their pixel-width measures; the pixel drawing of
lines 152-171 is not part of the layout result. -/
def render_text_ticket (cfg : Config) (font_title font_body : String → Nat)
    (title : String) (lines : List String) (add_datetime : Bool) :
    List (String × String) × Nat :=
  let max_text_width := cfg.PRINT_WIDTH_PX - 2 * cfg.MARGIN_X
  let date_block_height := if add_datetime then cfg.SIZE_BODY + 10 else 0
  let titleRecs :=
    if pyStrip title ≠ "" then
      (wrap_by_pixels (pyStrip title) font_title max_text_width).map
        (fun l => ("title", l))
    else []
  let bodyRecs :=
    (lines.map (fun ln =>
      let txt := pyStrip ln
      if txt = "" then [("body", "")]
      else (wrap_by_pixels txt font_body max_text_width).map
        (fun l => ("body", l)))).flatten
  let wrapped := titleRecs ++ bodyRecs
  let line_h := cfg.SIZE_BODY + 10
  let total_h :=
    max (cfg.MARGIN_Y + date_block_height + wrapped.length * line_h
          + cfg.EXTRA_BOTTOM) 120
  (wrapped, total_h)

/-- Value in the outbound JSON payload: a Python string or int. -/
inductive PyVal
  | str : String → PyVal
  | int : Int → PyVal
deriving DecidableEq

/-- Ticket identifier of src/main.py line 106; the millisecond clock reading
and the uuid suffix are parameters. -/
def ticket_id_for (ms : Nat) (suffix : String) : String :=
  "web-" ++ toString ms ++ "-" ++ suffix

/-- Payload dict of mqtt_publish_image_base64 (src/main.py lines 105-113),
kept as an ordered field list to capture the exact wire shape. -/
def mqtt_payload (ticket_id b64_png : String)
    (cut_paper paper_width_mm paper_height_mm : Int) :
    List (String × PyVal) :=
  [("ticket_id", PyVal.str ticket_id),
   ("data_type", PyVal.str "png"),
   ("data_base64", PyVal.str b64_png),
   ("paper_type", PyVal.int 0),
   ("paper_width_mm", PyVal.int paper_width_mm),
   ("paper_height_mm", PyVal.int paper_height_mm),
   ("cut_paper", PyVal.int cut_paper)]

/-- Observable result of one call to mqtt_publish_image_base64: the payloads
handed to client.publish, the log lines, and the outcome (normal return or
re-raised exception). -/
structure PublishRun where
  attempts : List (List (String × PyVal))
  logs : List String
  outcome : Except String Unit

/-- mqtt_publish_image_base64 (src/main.py lines 103-119).  The MQTT client
publish call is abstracted as a parameter giving its outcome per payload; on
failure the error is logged and re-raised unchanged. -/
def mqtt_publish_image_base64
    (transport : List (String × PyVal) → Except String Unit)
    (ticket_id b64_png : String)
    (cut_paper paper_width_mm paper_height_mm : Int) : PublishRun :=
  let payload := mqtt_payload ticket_id b64_png cut_paper paper_width_mm
      paper_height_mm
  match transport payload with
  | Except.ok _ => ⟨[payload], ["MQTT publish"], Except.ok ()⟩
  | Except.error e =>
    ⟨[payload], ["MQTT publish", "MQTT publish error: " ++ e], Except.error e⟩

/-- Envelope publication of the /print handler (src/main.py line 254): the
request's cut flag is coerced to 1 or 0, paper dimensions default to 0. -/
def print_job_publish (transport : List (String × PyVal) → Except String Unit)
    (ms : Nat) (suffix b64 : String) (cut : Bool) : PublishRun :=
  mqtt_publish_image_base64 transport (ticket_id_for ms suffix) b64
    (if cut then 1 else 0) 0 0

/-- safe_load_font (src/main.py lines 62-68): the outcome of
ImageFont.truetype is a parameter; on any failure the default font is
returned together with a diagnostic log line, and no error propagates. -/
def safe_load_font {F : Type} (truetype : Except String F)
    (load_default : F) (path : String) : F × List String :=
  match truetype with
  | Except.ok f => (f, [])
  | Except.error e =>
    (load_default,
     ["Font load failed for " ++ path ++ ": " ++ e ++ ". Using default."])

lemma data_append (a b : String) : (a ++ b).data = a.data ++ b.data := rfl

lemma tokensAux_ne_nil (cs : List Char) : ∀ cur, ∀ t ∈ tokensAux cur cs, t ≠ [] := by
  induction cs with
  | nil =>
    intro cur t ht
    simp only [tokensAux] at ht
    split at ht
    · simp at ht
    · next h =>
      simp only [List.mem_singleton] at ht
      subst ht
      simpa using h
  | cons c cs ih =>
    intro cur t ht
    simp only [tokensAux] at ht
    split at ht
    · rcases List.mem_append.1 ht with h1 | h2
      · split at h1
        · simp at h1
        · next h =>
          simp only [List.mem_singleton] at h1
          subst h1
          simpa using h
      · exact ih [] t h2
    · exact ih (c :: cur) t ht

lemma tokensAux_no_space (cs : List Char) :
    ∀ cur, (∀ c ∈ cur, isPySpace c = false) →
    ∀ t ∈ tokensAux cur cs, ∀ ch ∈ t, isPySpace ch = false := by
  induction cs with
  | nil =>
    intro cur hcur t ht ch hch
    simp only [tokensAux] at ht
    split at ht
    · simp at ht
    · simp only [List.mem_singleton] at ht
      subst ht
      exact hcur ch (List.mem_reverse.1 hch)
  | cons c cs ih =>
    intro cur hcur t ht ch hch
    simp only [tokensAux] at ht
    split at ht
    · rcases List.mem_append.1 ht with h1 | h2
      · split at h1
        · simp at h1
        · simp only [List.mem_singleton] at h1
          subst h1
          exact hcur ch (List.mem_reverse.1 hch)
      · exact ih [] (by simp) t h2 ch hch
    · next hc =>
      refine ih (c :: cur) ?_ t ht ch hch
      intro d hd
      rcases List.mem_cons.1 hd with rfl | hd
      · simpa using hc
      · exact hcur d hd

lemma tokensAux_all_nonspace (cs : List Char) :
    ∀ cur, (∀ c ∈ cs, isPySpace c = false) →
    tokensAux cur cs = if cur = [] ∧ cs = [] then [] else [cur.reverse ++ cs] := by
  induction cs with
  | nil =>
    intro cur _
    simp only [tokensAux]
    split
    · next h => simp [h]
    · next h => simp [h]
  | cons c cs ih =>
    intro cur h
    have hc : isPySpace c = false := h c (List.mem_cons_self c cs)
    simp only [tokensAux, hc, Bool.false_eq_true, if_false]
    rw [ih (c :: cur) (fun d hd => h d (List.mem_cons_of_mem c hd))]
    simp [List.reverse_cons, List.append_assoc]

lemma tokensAux_append_space {sp : Char} (hsp : isPySpace sp = true)
    (cs : List Char) : ∀ cur ys,
    tokensAux cur (cs ++ sp :: ys) = tokensAux cur cs ++ tokensAux [] ys := by
  induction cs with
  | nil =>
    intro cur ys
    simp [tokensAux, hsp]
  | cons c cs ih =>
    intro cur ys
    by_cases hc : isPySpace c = true
    · simp only [List.cons_append, tokensAux, hc, if_true, List.append_eq]
      rw [ih [] ys, List.append_assoc]
    · simp only [List.cons_append, tokensAux, hc, Bool.false_eq_true, if_false]
      exact ih (c :: cur) ys

lemma pySplit_token {s w : String} (hw : w ∈ pySplit s) : pySplit w = [w] := by
  rcases List.mem_map.1 hw with ⟨l, hl, rfl⟩
  have h1 : l ≠ [] := tokensAux_ne_nil _ _ l hl
  have h2 : ∀ ch ∈ l, isPySpace ch = false :=
    tokensAux_no_space _ [] (by simp) l hl
  have hdata : (String.mk l).data = l := rfl
  simp only [pySplit, hdata, tokensAux_all_nonspace l [] h2]
  simp [h1]

lemma pySplit_append_space (a b : String) :
    pySplit (a ++ " " ++ b) = pySplit a ++ pySplit b := by
  have hdata : (a ++ " " ++ b).data = a.data ++ ' ' :: b.data := by
    simp [data_append]
  simp only [pySplit, hdata]
  rw [tokensAux_append_space (by decide) a.data [] b.data]
  simp

lemma wrapAux_ne_nil (font : String → Nat) (max_px : Nat) :
    ∀ ws line, wrapAux font max_px line ws ≠ [] := by
  intro ws
  induction ws with
  | nil => intro line; simp [wrapAux]
  | cons w ws ih =>
    intro line
    simp only [wrapAux]
    split
    · exact ih _
    · simp

lemma wrapAux_fits (font : String → Nat) (max_px : Nat) (toks : List String) :
    ∀ ws line, (font line ≤ max_px ∨ line ∈ toks) → (∀ w ∈ ws, w ∈ toks) →
    ∀ l ∈ wrapAux font max_px line ws, font l ≤ max_px ∨ l ∈ toks := by
  intro ws
  induction ws with
  | nil =>
    intro line hline _ l hl
    simp only [wrapAux, List.mem_singleton] at hl
    subst hl
    exact hline
  | cons w ws ih =>
    intro line hline hws l hl
    simp only [wrapAux] at hl
    split at hl
    · next hfit =>
      exact ih _ (Or.inl hfit) (fun u hu => hws u (List.mem_cons_of_mem _ hu)) l hl
    · rcases List.mem_cons.1 hl with rfl | hl
      · exact hline
      · exact ih _ (Or.inr (hws w (List.mem_cons_self w ws)))
          (fun u hu => hws u (List.mem_cons_of_mem _ hu)) l hl

lemma wrapAux_eq_foldl (font : String → Nat) (max_px : Nat) :
    ∀ ws done line,
      done ++ wrapAux font max_px line ws
        = (ws.foldl (wrapSpecStep font max_px) (done, line)).1
          ++ [(ws.foldl (wrapSpecStep font max_px) (done, line)).2] := by
  intro ws
  induction ws with
  | nil => intro done line; simp [wrapAux]
  | cons w ws ih =>
    intro done line
    by_cases hfit : font (line ++ " " ++ w) ≤ max_px
    · simp only [wrapAux, List.foldl_cons, wrapSpecStep, if_pos hfit]
      exact ih done (line ++ " " ++ w)
    · simp only [wrapAux, List.foldl_cons, wrapSpecStep, if_neg hfit]
      rw [← ih (done ++ [line]) w]
      simp

lemma wrapAux_append_one (font : String → Nat) (max_px : Nat) :
    ∀ ws line x w, wrapAux font max_px line ws = [x] →
      wrapAux font max_px line (ws ++ [w])
        = if font (x ++ " " ++ w) ≤ max_px then [x ++ " " ++ w] else [x, w] := by
  intro ws
  induction ws with
  | nil =>
    intro line x w h
    obtain rfl : line = x := by simpa [wrapAux] using h
    simp [wrapAux]
  | cons u us ih =>
    intro line x w h
    by_cases hfit : font (line ++ " " ++ u) ≤ max_px
    · simp only [wrapAux, if_pos hfit, List.cons_append] at h ⊢
      exact ih _ x w h
    · simp only [wrapAux, if_neg hfit] at h
      have hne := wrapAux_ne_nil font max_px us u
      injection h with h1 h2
      exact absurd h2 hne

lemma wrapAux_self (font : String → Nat) (max_px : Nat) :
    ∀ ws line, pySplit line ≠ [] → wrap_by_pixels line font max_px = [line] →
      (∀ w ∈ ws, pySplit w = [w]) →
      ∀ l ∈ wrapAux font max_px line ws, wrap_by_pixels l font max_px = [l] := by
  intro ws
  induction ws with
  | nil =>
    intro line _ hline _ l hl
    simp only [wrapAux, List.mem_singleton] at hl
    subst hl
    exact hline
  | cons w ws ih =>
    intro line hne hline hws l hl
    have hw : pySplit w = [w] := hws w (List.mem_cons_self w ws)
    by_cases hfit : font (line ++ " " ++ w) ≤ max_px
    · simp only [wrapAux, if_pos hfit] at hl
      refine ih (line ++ " " ++ w) ?_ ?_
        (fun u hu => hws u (List.mem_cons_of_mem _ hu)) l hl
      · rw [pySplit_append_space, hw]
        simp
      · obtain ⟨t, ts, hts⟩ : ∃ t ts, pySplit line = t :: ts := by
          cases hc : pySplit line with
          | nil => exact absurd hc hne
          | cons t ts => exact ⟨t, ts, rfl⟩
        have hwrapline : wrapAux font max_px t ts = [line] := by
          simpa [wrap_by_pixels, hts] using hline
        have hsplit : pySplit (line ++ " " ++ w) = t :: (ts ++ [w]) := by
          rw [pySplit_append_space, hw, hts]
          rfl
        simp only [wrap_by_pixels, hsplit]
        rw [wrapAux_append_one font max_px ts t line w hwrapline, if_pos hfit]
    · simp only [wrapAux, if_neg hfit] at hl
      rcases List.mem_cons.1 hl with rfl | hl
      · exact hline
      · refine ih w ?_ ?_ (fun u hu => hws u (List.mem_cons_of_mem _ hu)) l hl
        · rw [hw]
          simp
        · simp [wrap_by_pixels, hw, wrapAux]

lemma joinSpace_cons (l : String) (L : List String) (h : L ≠ []) :
    joinSpace (l :: L) = l ++ " " ++ joinSpace L := by
  cases L with
  | nil => exact absurd rfl h
  | cons a as => rfl

lemma pySplit_joinSpace_wrapAux (font : String → Nat) (max_px : Nat) :
    ∀ ws line, (∀ w ∈ ws, pySplit w = [w]) →
      pySplit (joinSpace (wrapAux font max_px line ws)) = pySplit line ++ ws := by
  intro ws
  induction ws with
  | nil =>
    intro line _
    simp [wrapAux, joinSpace]
  | cons w ws ih =>
    intro line hws
    have hw : pySplit w = [w] := hws w (List.mem_cons_self w ws)
    by_cases hfit : font (line ++ " " ++ w) ≤ max_px
    · simp only [wrapAux, if_pos hfit]
      rw [ih (line ++ " " ++ w) (fun u hu => hws u (List.mem_cons_of_mem _ hu))]
      rw [pySplit_append_space, hw]
      simp
    · simp only [wrapAux, if_neg hfit]
      rw [joinSpace_cons _ _ (wrapAux_ne_nil font max_px ws w)]
      rw [pySplit_append_space]
      rw [ih w (fun u hu => hws u (List.mem_cons_of_mem _ hu))]
      rw [hw]
      simp

/-- C1: wrap_by_pixels implements the greedy algorithm: it splits the input
on whitespace into tokens, greedily accumulates tokens into the current line
joined by single spaces, accepts a candidate line when its measured width is
at most max_px, otherwise flushes the current line unchanged and starts a new
line containing just the overflowing token; empty input yields exactly the
one-element sequence containing the empty string (wrapSpec is the algorithm
exactly as the specification words it). -/
theorem C1_wrap_by_pixels_greedy (text : String) (font : String → Nat)
    (max_px : Nat) : wrap_by_pixels text font max_px = wrapSpec text font max_px := by
  cases h : pySplit text with
  | nil => simp [wrap_by_pixels, wrapSpec, h]
  | cons t ts =>
    simp only [wrap_by_pixels, wrapSpec, h]
    simpa using wrapAux_eq_foldl font max_px ts [] t

/-- C2: every line that wrap_by_pixels emits has measured width at most
max_px, except a single unbreakable token whose own width exceeds max_px,
which is emitted verbatim (it is one of the whitespace-split tokens of the
input) and alone as its own line; moreover a candidate whose width equals
max_px exactly is accepted onto the current line, not overflowed.  The
hypothesis records that the modelled width measure gives the empty string
width 0, as PIL text measurement does. -/
theorem C2_wrap_lines_fit (text : String) (font : String → Nat) (max_px : Nat)
    (hfont : font "" = 0) :
    (∀ l ∈ wrap_by_pixels text font max_px,
        font l ≤ max_px ∨ (max_px < font l ∧ l ∈ pySplit text))
    ∧ (∀ (line word : String) (rest : List String),
        font (line ++ " " ++ word) = max_px →
        wrapAux font max_px line (word :: rest)
          = wrapAux font max_px (line ++ " " ++ word) rest) := by
  constructor
  · intro l hl
    cases h : pySplit text with
    | nil =>
      have : l = "" := by simpa [wrap_by_pixels, h] using hl
      subst this
      exact Or.inl (by rw [hfont]; exact Nat.zero_le max_px)
    | cons t ts =>
      have hl' : l ∈ wrapAux font max_px t ts := by
        simp only [wrap_by_pixels, h] at hl
        exact hl
      have hmem := wrapAux_fits font max_px (t :: ts) ts t
        (Or.inr (List.mem_cons_self t ts))
        (fun u hu => List.mem_cons_of_mem t hu) l hl'
      by_cases hle : font l ≤ max_px
      · exact Or.inl hle
      · rcases hmem with hle' | htok
        · exact absurd hle' hle
        · exact Or.inr ⟨Nat.lt_of_not_le hle, htok⟩
  · intro line word rest h
    simp [wrapAux, h]

/-- Witness for C2 at text "aa bbb" with the character-count width measure:
the line "aa" fits a budget of 2, and a candidate of width exactly 6 is
accepted under a budget of 6. -/
theorem C2_wrap_lines_fit_witness :
    (String.length "aa" ≤ 2 ∨ (2 < String.length "aa" ∧ "aa" ∈ pySplit "aa bbb"))
    ∧ wrapAux String.length 6 "aa" ["bbb"] = wrapAux String.length 6 "aa bbb" [] :=
  ⟨(C2_wrap_lines_fit "aa bbb" String.length 2 (by decide)).1 "aa" (by decide),
   (C2_wrap_lines_fit "aa bbb" String.length 6 (by decide)).2 "aa" "bbb" [] (by decide)⟩

/-- C6: wrapping is idempotent on pre-wrapped input: each line of the
wrapper's own output, re-wrapped with the same font and budget, comes back
unchanged as a one-element sequence. -/
theorem C6_wrap_idempotent (text : String) (font : String → Nat) (max_px : Nat) :
    ∀ l ∈ wrap_by_pixels text font max_px, wrap_by_pixels l font max_px = [l] := by
  intro l hl
  cases h : pySplit text with
  | nil =>
    have : l = "" := by simpa [wrap_by_pixels, h] using hl
    subst this
    rfl
  | cons t ts =>
    have hl' : l ∈ wrapAux font max_px t ts := by
      simpa [wrap_by_pixels, h] using hl
    have ht : pySplit t = [t] :=
      pySplit_token (show t ∈ pySplit text by rw [h]; exact List.mem_cons_self t ts)
    refine wrapAux_self font max_px ts t ?_ ?_ ?_ l hl'
    · rw [ht]
      simp
    · simp [wrap_by_pixels, ht, wrapAux]
    · intro w hw
      exact pySplit_token
        (show w ∈ pySplit text by rw [h]; exact List.mem_cons_of_mem t hw)

/-- Witness for C6: the emitted line "aa" of wrapping "aa bb" at budget 2
re-wraps to itself. -/
theorem C6_wrap_idempotent_witness :
    wrap_by_pixels "aa" String.length 2 = ["aa"] :=
  C6_wrap_idempotent "aa bb" String.length 2 "aa" (by decide)

/-- C10: the wrapper preserves the token sequence: when the input has at
least one token, splitting the space-joined concatenation of the output
lines yields exactly the input's token sequence. -/
theorem C10_wrap_preserves_tokens (text : String) (font : String → Nat)
    (max_px : Nat) (h : pySplit text ≠ []) :
    pySplit (joinSpace (wrap_by_pixels text font max_px)) = pySplit text := by
  cases hsp : pySplit text with
  | nil => exact absurd hsp h
  | cons t ts =>
    simp only [wrap_by_pixels, hsp]
    rw [pySplit_joinSpace_wrapAux font max_px ts t
      (fun w hw => pySplit_token
        (show w ∈ pySplit text by rw [hsp]; exact List.mem_cons_of_mem t hw))]
    rw [pySplit_token
      (show t ∈ pySplit text by rw [hsp]; exact List.mem_cons_self t ts)]
    rfl

/-- Witness for C10 at text "ab cd" and budget 2: the output lines joined by
spaces split back to the original tokens. -/
theorem C10_wrap_preserves_tokens_witness :
    pySplit (joinSpace (wrap_by_pixels "ab cd" String.length 2)) = pySplit "ab cd" :=
  C10_wrap_preserves_tokens "ab cd" String.length 2 (by decide)

/-- C3: the canvas height computed by render_text_ticket equals
marginY + timestampReservedHeight + lineCount * linePitch + bottomPadding,
clamped from below to the minimum of 120; it is monotonically non-decreasing
in the number of line records (for a fixed configuration and timestamp flag)
and never below that minimum. -/
theorem C3_canvas_height (cfg : Config) (fT fB : String → Nat) :
    (∀ title lines dt,
      (render_text_ticket cfg fT fB title lines dt).2
        = max (cfg.MARGIN_Y + (if dt then cfg.SIZE_BODY + 10 else 0)
            + (render_text_ticket cfg fT fB title lines dt).1.length
              * (cfg.SIZE_BODY + 10)
            + cfg.EXTRA_BOTTOM) 120)
    ∧ (∀ dt t₁ l₁ t₂ l₂,
        (render_text_ticket cfg fT fB t₁ l₁ dt).1.length
          ≤ (render_text_ticket cfg fT fB t₂ l₂ dt).1.length →
        (render_text_ticket cfg fT fB t₁ l₁ dt).2
          ≤ (render_text_ticket cfg fT fB t₂ l₂ dt).2)
    ∧ (∀ title lines dt, 120 ≤ (render_text_ticket cfg fT fB title lines dt).2) := by
  refine ⟨fun title lines dt => rfl, ?_, fun title lines dt => le_max_right _ 120⟩
  intro dt t₁ l₁ t₂ l₂ h
  have e₁ : (render_text_ticket cfg fT fB t₁ l₁ dt).2
      = max (cfg.MARGIN_Y + (if dt then cfg.SIZE_BODY + 10 else 0)
          + (render_text_ticket cfg fT fB t₁ l₁ dt).1.length * (cfg.SIZE_BODY + 10)
          + cfg.EXTRA_BOTTOM) 120 := rfl
  have e₂ : (render_text_ticket cfg fT fB t₂ l₂ dt).2
      = max (cfg.MARGIN_Y + (if dt then cfg.SIZE_BODY + 10 else 0)
          + (render_text_ticket cfg fT fB t₂ l₂ dt).1.length * (cfg.SIZE_BODY + 10)
          + cfg.EXTRA_BOTTOM) 120 := rfl
  rw [e₁, e₂]
  exact max_le_max
    (Nat.add_le_add_right
      (Nat.add_le_add_left (Nat.mul_le_mul_right _ h) _) _)
    le_rfl

/-- Witness for C3's monotonicity at the default configuration: adding one
body line does not decrease the canvas height. -/
theorem C3_canvas_height_witness :
    (render_text_ticket defaultConfig (fun _ => 0) (fun _ => 0) "" [] true).2
      ≤ (render_text_ticket defaultConfig (fun _ => 0) (fun _ => 0) "" ["x"] true).2 :=
  (C3_canvas_height defaultConfig (fun _ => 0) (fun _ => 0)).2.1
    true "" [] "" ["x"] (by decide)

/-- C7: the degenerate ticket (empty title, no body lines, no timestamp)
produces exactly zero line records and a canvas height equal to the
minimum 120; it is a value, not an error. -/
theorem C7_degenerate_layout (fT fB : String → Nat) :
    render_text_ticket defaultConfig fT fB "" [] false = ([], 120) := rfl

/-- C4: every publish hands the transport exactly the JSON object with the
seven fields ticket_id (string), data_type (constant string "png"),
data_base64 (string), paper_type (constant integer 0), paper_width_mm and
paper_height_mm (integers) and cut_paper (integer); for a /print request
cut_paper is the request's cut flag coerced to 1 when true and 0 when false,
hence always 0 or 1. -/
theorem C4_outbound_message_contract
    (transport : List (String × PyVal) → Except String Unit)
    (tid b64 : String) (cut_paper paper_width_mm paper_height_mm : Int) :
    (mqtt_publish_image_base64 transport tid b64 cut_paper paper_width_mm
        paper_height_mm).attempts
      = [mqtt_payload tid b64 cut_paper paper_width_mm paper_height_mm]
    ∧ (mqtt_payload tid b64 cut_paper paper_width_mm paper_height_mm).map Prod.fst
      = ["ticket_id", "data_type", "data_base64", "paper_type",
         "paper_width_mm", "paper_height_mm", "cut_paper"]
    ∧ (mqtt_payload tid b64 cut_paper paper_width_mm paper_height_mm).lookup
        "ticket_id" = some (PyVal.str tid)
    ∧ (mqtt_payload tid b64 cut_paper paper_width_mm paper_height_mm).lookup
        "data_type" = some (PyVal.str "png")
    ∧ (mqtt_payload tid b64 cut_paper paper_width_mm paper_height_mm).lookup
        "data_base64" = some (PyVal.str b64)
    ∧ (mqtt_payload tid b64 cut_paper paper_width_mm paper_height_mm).lookup
        "paper_type" = some (PyVal.int 0)
    ∧ (mqtt_payload tid b64 cut_paper paper_width_mm paper_height_mm).lookup
        "paper_width_mm" = some (PyVal.int paper_width_mm)
    ∧ (mqtt_payload tid b64 cut_paper paper_width_mm paper_height_mm).lookup
        "paper_height_mm" = some (PyVal.int paper_height_mm)
    ∧ (mqtt_payload tid b64 cut_paper paper_width_mm paper_height_mm).lookup
        "cut_paper" = some (PyVal.int cut_paper)
    ∧ (∀ (ms : Nat) (suffix : String) (cut : Bool),
        (print_job_publish transport ms suffix b64 cut).attempts
          = [mqtt_payload (ticket_id_for ms suffix) b64
              (if cut then 1 else 0) 0 0]
        ∧ (mqtt_payload (ticket_id_for ms suffix) b64
            (if cut then 1 else 0) 0 0).lookup "cut_paper"
          = some (PyVal.int (if cut then 1 else 0))
        ∧ ((if cut then (1 : Int) else 0) = 0 ∨ (if cut then (1 : Int) else 0) = 1)) := by
  refine ⟨?_, rfl, rfl, rfl, rfl, rfl, rfl, rfl, rfl, ?_⟩
  · cases h : transport (mqtt_payload tid b64 cut_paper paper_width_mm
        paper_height_mm) <;>
      simp [mqtt_publish_image_base64, h]
  · intro ms suffix cut
    refine ⟨?_, rfl, ?_⟩
    · cases h : transport (mqtt_payload (ticket_id_for ms suffix) b64
          (if cut then 1 else 0) 0 0) <;>
        simp [print_job_publish, mqtt_publish_image_base64, h]
    · cases cut
      · exact Or.inl rfl
      · exact Or.inr rfl

/-- C8: safe_load_font always returns a font handle: when the load succeeds
it is the loaded font with nothing logged, and on any load failure it is the
built-in fallback font together with a logged diagnostic; no error is
propagated. -/
theorem C8_safe_load_font_total {F : Type} (truetype : Except String F)
    (load_default : F) (path : String) :
    (∃ f, truetype = Except.ok f
      ∧ safe_load_font truetype load_default path = (f, []))
    ∨ (∃ e, truetype = Except.error e
      ∧ safe_load_font truetype load_default path
        = (load_default,
           ["Font load failed for " ++ path ++ ": " ++ e ++ ". Using default."])) := by
  cases truetype with
  | ok f => exact Or.inl ⟨f, rfl, rfl⟩
  | error e => exact Or.inr ⟨e, rfl, rfl⟩

/-- C9: each call to mqtt_publish_image_base64 performs exactly one publish
call (so at most one outbound message, exactly one on success), returns the
transport's outcome unchanged (a failure is re-raised, never retried or
buffered), and logs the error on failure. -/
theorem C9_publish_once_reraise
    (transport : List (String × PyVal) → Except String Unit)
    (tid b64 : String) (cut_paper paper_width_mm paper_height_mm : Int) :
    (mqtt_publish_image_base64 transport tid b64 cut_paper paper_width_mm
        paper_height_mm).attempts.length = 1
    ∧ (mqtt_publish_image_base64 transport tid b64 cut_paper paper_width_mm
        paper_height_mm).outcome
      = transport (mqtt_payload tid b64 cut_paper paper_width_mm paper_height_mm)
    ∧ (∀ e, transport (mqtt_payload tid b64 cut_paper paper_width_mm
          paper_height_mm) = Except.error e →
        "MQTT publish error: " ++ e
          ∈ (mqtt_publish_image_base64 transport tid b64 cut_paper paper_width_mm
              paper_height_mm).logs) := by
  cases h : transport (mqtt_payload tid b64 cut_paper paper_width_mm
      paper_height_mm) with
  | ok u =>
    cases u
    refine ⟨by simp [mqtt_publish_image_base64, h],
      by simp [mqtt_publish_image_base64, h], ?_⟩
    intro e he
    simp at he
  | error e =>
    refine ⟨by simp [mqtt_publish_image_base64, h],
      by simp [mqtt_publish_image_base64, h], ?_⟩
    intro e' he
    injection he with h₁
    subst h₁
    simp [mqtt_publish_image_base64, h]

/-- Witness for C9 with a failing transport: one publish attempt and the
logged error. -/
theorem C9_publish_once_reraise_witness :
    (mqtt_publish_image_base64 (fun _ => Except.error "down") "t" "b"
        1 0 0).attempts.length = 1
    ∧ "MQTT publish error: " ++ "down"
      ∈ (mqtt_publish_image_base64 (fun _ => Except.error "down") "t" "b"
          1 0 0).logs :=
  ⟨(C9_publish_once_reraise (fun _ => Except.error "down") "t" "b" 1 0 0).1,
   (C9_publish_once_reraise (fun _ => Except.error "down") "t" "b" 1 0 0).2.2
     "down" rfl⟩

example : pySplit "ab  cd " = ["ab", "cd"] := by decide
example : pySplit "" = [] := by decide
example : wrap_by_pixels "aa bb cc" String.length 5 = ["aa bb", "cc"] := by
  decide
example : wrap_by_pixels "" String.length 5 = [""] := by decide
example : pyStrip "  ab " = "ab" := by decide
example : (render_text_ticket defaultConfig (fun _ => 0) (fun _ => 0)
    "" [] false).2 = 120 := by decide

end Printer
